import Mathlib

/-
Verification of the risk-aware routing core of the Vaayu repository
(`src/services/navigation.py` and the `/navigate/safest-route` handler in
`src/api/routes.py`).

Modelling choices:
* Coordinates are rationals (`ℚ × ℚ`); the Python code uses floats, but every
  property checked here depends only on exact decimal arithmetic on the fixed
  map literals.
* The Spatial Risk Index query (`db.query(models.RiskZone).filter(
  ST_DWithin(RiskZone.zone, point, 0)).first()`) is modelled as a
  point-classification oracle `db : Coord → Bool` (`true` iff the point is
  within zero distance of some risk zone).  For claim C8 a fallible oracle
  `Coord → Except String Bool` models a raising database session.
* Risk-index queries are an observable effect in Python, so the navigation
  functions additionally return the list of points queried (writer style).
* `nx.dijkstra_path` is modelled by a standard deterministic Dijkstra search
  (first-minimum tie-breaking).  Every property proved below is insensitive to
  the tie-breaking order: optimality and path validity are established for the
  model by exhaustive checking over all 32 risk configurations of the fixed
  5-edge map.
-/

set_option maxRecDepth 4000

abbrev Coord := ℚ × ℚ

/-- The five map nodes of `MAP_NODES` in `src/services/navigation.py`. -/
inductive Node
  | A_Home
  | B_Intersection
  | C_Risky_Area
  | D_Intersection
  | E_Work
deriving DecidableEq, Fintype

def nodeName : Node → String
  | .A_Home => "A_Home"
  | .B_Intersection => "B_Intersection"
  | .C_Risky_Area => "C_Risky_Area"
  | .D_Intersection => "D_Intersection"
  | .E_Work => "E_Work"

def nodeCoord : Node → Coord
  | .A_Home => (-74.0060, 40.7128)
  | .B_Intersection => (-73.9960, 40.7228)
  | .C_Risky_Area => (-73.9860, 40.7328)
  | .D_Intersection => (-73.9950, 40.7428)
  | .E_Work => (-73.9850, 40.7528)

def allNodes : List Node :=
  [.A_Home, .B_Intersection, .C_Risky_Area, .D_Intersection, .E_Work]

/-- Definition `MAP_NODES` from `src/services/navigation.py` (a dict, in
insertion order). -/
def MAP_NODES : List (String × Coord) :=
  [("A_Home", (-74.0060, 40.7128)),
   ("B_Intersection", (-73.9960, 40.7228)),
   ("C_Risky_Area", (-73.9860, 40.7328)),
   ("D_Intersection", (-73.9950, 40.7428)),
   ("E_Work", (-73.9850, 40.7528))]

/-- Definition `MAP_EDGES` from `src/services/navigation.py`. -/
def MAP_EDGES : List (String × String) :=
  [("A_Home", "B_Intersection"),
   ("B_Intersection", "C_Risky_Area"),
   ("B_Intersection", "D_Intersection"),
   ("C_Risky_Area", "E_Work"),
   ("D_Intersection", "E_Work")]

/-- The edge list with identifiers resolved to `Node`. -/
def edgesI : List (Node × Node) :=
  [(.A_Home, .B_Intersection),
   (.B_Intersection, .C_Risky_Area),
   (.B_Intersection, .D_Intersection),
   (.C_Risky_Area, .E_Work),
   (.D_Intersection, .E_Work)]

/-- The dict-membership test `x in MAP_NODES`, resolving a valid identifier to
its node. -/
def parseNode (s : String) : Option Node :=
  if s = "A_Home" then some .A_Home
  else if s = "B_Intersection" then some .B_Intersection
  else if s = "C_Risky_Area" then some .C_Risky_Area
  else if s = "D_Intersection" then some .D_Intersection
  else if s = "E_Work" then some .E_Work
  else none

/-- The midpoint `(mid_lon, mid_lat)` computed inside `get_edge_risk_weight`. -/
def midpointOf (c1 c2 : Coord) : Coord := ((c1.1 + c2.1) / 2, (c1.2 + c2.2) / 2)

/-- Function `get_edge_risk_weight` from `src/services/navigation.py`: classify
the midpoint of the street segment with the risk index; weight 100 if it is
inside a risk zone, else 1.  Also returns the list of points queried at the
index. -/
def get_edge_risk_weight (c1 c2 : Coord) (db : Coord → Bool) : Nat × List Coord :=
  (if db (midpointOf c1 c2) then 100 else 1, [midpointOf c1 c2])

/-- The classification the risk index gives to the midpoint of the edge
`(a, b)`. -/
def dbEdge (db : Coord → Bool) (a b : Node) : Bool :=
  db (midpointOf (nodeCoord a) (nodeCoord b))

/-- A weighted undirected graph: edge entries `(u, v, weight)`. -/
abbrev WGraph := List (Node × Node × Nat)

/-- Function `create_map_graph` from `src/services/navigation.py`: attach to
every declared edge the weight from `get_edge_risk_weight`, in `MAP_EDGES`
order.  Second component: the risk-index queries performed. -/
def create_map_graph (db : Coord → Bool) : WGraph × List Coord :=
  edgesI.foldl
    (fun acc e =>
      let wq := get_edge_risk_weight (nodeCoord e.1) (nodeCoord e.2) db
      (acc.1 ++ [(e.1, e.2, wq.1)], acc.2 ++ wq.2))
    ([], [])

/-- Neighbors of `u` with edge weights, in edge-list order (undirected). -/
def neighbors (g : WGraph) (u : Node) : List (Node × Nat) :=
  g.foldr
    (fun e acc =>
      if e.1 = u then (e.2.1, e.2.2) :: acc
      else if e.2.1 = u then (e.1, e.2.2) :: acc
      else acc) []

/-- Relax a frontier entry: keep the better of the stored and offered distance
(ties keep the stored entry).  Entries are `(node, dist, reversed path)`. -/
def improve (fr : List (Node × Nat × List Node)) (n : Node) (d : Nat) (p : List Node) :
    List (Node × Nat × List Node) :=
  match fr with
  | [] => [(n, d, p)]
  | e :: rest =>
    if e.1 = n then
      if d < e.2.1 then (n, d, p) :: rest else e :: rest
    else e :: improve rest n d p

/-- First entry of minimal distance in the frontier. -/
def pickMin : List (Node × Nat × List Node) → Option (Node × Nat × List Node)
  | [] => none
  | e :: rest =>
    match pickMin rest with
    | none => some e
    | some e2 => if e.2.1 ≤ e2.2.1 then some e else some e2

/-- The Dijkstra main loop (fuel-indexed; 6 > number of nodes always suffices
since each iteration retires one node). -/
def dijkstraLoop (g : WGraph) (target : Node) :
    Nat → List Node → List (Node × Nat × List Node) → Option (List Node)
  | 0, _, _ => none
  | Nat.succ fuel, visited, fr =>
    match pickMin fr with
    | none => none
    | some e =>
      if e.1 = target then some e.2.2.reverse
      else
        let visited2 := e.1 :: visited
        let fr1 := fr.filter (fun x => decide (x.1 ≠ e.1))
        let fr2 := (neighbors g e.1).foldl
          (fun acc vw =>
            if vw.1 ∈ visited2 then acc
            else improve acc vw.1 (e.2.1 + vw.2) (vw.1 :: e.2.2)) fr1
        dijkstraLoop g target fuel visited2 fr2

/-- Model of `nx.dijkstra_path(graph, source, target, weight)`: `none` exactly
when networkx raises `NetworkXNoPath`. -/
def dijkstra_path (g : WGraph) (s t : Node) : Option (List Node) :=
  dijkstraLoop g t 6 [] [(s, 0, [s])]

/-- The success payload of `find_safest_route`. -/
structure RouteResult where
  path_nodes : List String
  path_coordinates : List Coord
deriving DecidableEq

/-- Function `find_safest_route` from `src/services/navigation.py`.  Returns
the route (or `none` both for an unknown identifier and for an unreachable
target) paired with the list of risk-index queries performed. -/
def find_safest_route (start_node end_node : String) (db : Coord → Bool) :
    Option RouteResult × List Coord :=
  match parseNode start_node, parseNode end_node with
  | some s, some t =>
    let gl := create_map_graph db
    match dijkstra_path gl.1 s t with
    | some path_nodes =>
      (some ⟨path_nodes.map nodeName, path_nodes.map nodeCoord⟩, gl.2)
    | none => (none, gl.2)
  | _, _ => (none, [])

/-- The 404 detail string built in `get_safest_route` in `src/api/routes.py`. -/
def msg404 : String :=
  "No path found or invalid nodes provided. Valid nodes are: " ++
    String.intercalate ", " (MAP_NODES.map Prod.fst)

/-- The handler's packaging of the navigation result: any `None` route becomes
the single `HTTPException(404, msg404)`. -/
def handleRouteResult (r : Option RouteResult) : Except (Nat × String) RouteResult :=
  match r with
  | none => .error (404, msg404)
  | some route => .ok route

/-- Handler `get_safest_route` from `src/api/routes.py` (the
`/navigate/safest-route` endpoint). -/
def get_safest_route (start_node end_node : String) (db : Coord → Bool) :
    Except (Nat × String) RouteResult :=
  handleRouteResult (find_safest_route start_node end_node db).1

/-- Variant of `get_edge_risk_weight` over a fallible risk index: a raising
query propagates as an `Except.error`. -/
def get_edge_risk_weightE (c1 c2 : Coord) (db : Coord → Except String Bool) :
    Except String Nat :=
  match db (midpointOf c1 c2) with
  | .error e => .error e
  | .ok inZone => .ok (if inZone then 100 else 1)

/-- Variant of `create_map_graph` over a fallible risk index: the loop in
`create_map_graph` performs the queries in `MAP_EDGES` order and an exception
aborts the whole build. -/
def create_map_graphE (db : Coord → Except String Bool) : Except String WGraph :=
  edgesI.foldl
    (fun acc e =>
      match acc with
      | .error err => .error err
      | .ok g =>
        match get_edge_risk_weightE (nodeCoord e.1) (nodeCoord e.2) db with
        | .error err => .error err
        | .ok w => .ok (g ++ [(e.1, e.2, w)]))
    (.ok [])

/-- Variant of `find_safest_route` over a fallible risk index.  Its
`try/except` catches only `nx.NetworkXNoPath`, so a database error escapes. -/
def find_safest_routeE (start_node end_node : String) (db : Coord → Except String Bool) :
    Except String (Option RouteResult) :=
  match parseNode start_node, parseNode end_node with
  | some s, some t =>
    match create_map_graphE db with
    | .error e => .error e
    | .ok g =>
      match dijkstra_path g s t with
      | some path_nodes => .ok (some ⟨path_nodes.map nodeName, path_nodes.map nodeCoord⟩)
      | none => .ok none
  | _, _ => .ok none

/-- The fallible risk index applied to the midpoint of edge `(a, b)`. -/
def dbEdgeE (db : Coord → Except String Bool) (a b : Node) : Except String Bool :=
  db (midpointOf (nodeCoord a) (nodeCoord b))

/-- The graph produced by `create_map_graph`, as a function of the per-edge
midpoint classifications. -/
def graphOf (f : Node → Node → Bool) : WGraph :=
  [(.A_Home, .B_Intersection, if f .A_Home .B_Intersection then 100 else 1),
   (.B_Intersection, .C_Risky_Area, if f .B_Intersection .C_Risky_Area then 100 else 1),
   (.B_Intersection, .D_Intersection, if f .B_Intersection .D_Intersection then 100 else 1),
   (.C_Risky_Area, .E_Work, if f .C_Risky_Area .E_Work then 100 else 1),
   (.D_Intersection, .E_Work, if f .D_Intersection .E_Work then 100 else 1)]

/-- An edge-classification function given by five booleans, one per declared
edge (used to enumerate all risk configurations). -/
def fOf (b1 b2 b3 b4 b5 : Bool) : Node → Node → Bool
  | .A_Home, .B_Intersection => b1
  | .B_Intersection, .C_Risky_Area => b2
  | .B_Intersection, .D_Intersection => b3
  | .C_Risky_Area, .E_Work => b4
  | .D_Intersection, .E_Work => b5
  | _, _ => false

/-- The risk-index queries performed by one graph build: the five edge
midpoints, in `MAP_EDGES` order. -/
def queriesList : List Coord :=
  edgesI.map (fun e => midpointOf (nodeCoord e.1) (nodeCoord e.2))

/-- Adjacency in the declared (undirected) edge set. -/
def adjB (a b : Node) : Bool := decide ((a, b) ∈ edgesI) || decide ((b, a) ∈ edgesI)

/-- All consecutive pairs of a node list are declared edges. -/
def chainB : List Node → Bool
  | [] => true
  | [_] => true
  | a :: b :: rest => adjB a b && chainB (b :: rest)

/-- The list is a walk over declared edges from `s` to `t`. -/
def isRouteB (s t : Node) (p : List Node) : Bool :=
  decide (p.head? = some s) && decide (p.getLast? = some t) && chainB p

/-- Weight of the (undirected) edge `(a, b)` in `g`, if present. -/
def edgeWeight (g : WGraph) (a b : Node) : Option Nat :=
  (g.find? (fun x => (decide (x.1 = a) && decide (x.2.1 = b)) ||
                     (decide (x.1 = b) && decide (x.2.1 = a)))).map (fun x => x.2.2)

/-- Total weight of a node list in `g` (`none` if a hop is not an edge). -/
def pathWeight (g : WGraph) : List Node → Option Nat
  | [] => none
  | [_] => some 0
  | a :: b :: rest =>
    match edgeWeight g a b, pathWeight g (b :: rest) with
    | some w, some r => some (w + r)
    | _, _ => none

/-- Consecutive pairs of a node list. -/
def edgePairs : List Node → List (Node × Node)
  | a :: b :: rest => (a, b) :: edgePairs (b :: rest)
  | _ => []

/-- All insertions of `x` into a list. -/
def insertsOf (x : Node) : List Node → List (List Node)
  | [] => [[x]]
  | y :: ys => (x :: y :: ys) :: (insertsOf x ys).map (y :: ·)

/-- All permutations of a list (structurally recursive enumeration). -/
def permsOf : List Node → List (List Node)
  | [] => [[]]
  | x :: xs => (permsOf xs).flatMap (insertsOf x)

/-- All sublists of a list (structurally recursive enumeration). -/
def sublistsOf : List Node → List (List Node)
  | [] => [[]]
  | x :: xs => sublistsOf xs ++ (sublistsOf xs).map (x :: ·)

/-- Every duplicate-free list of nodes occurs in this enumeration. -/
def allNodupLists : List (List Node) := (sublistsOf allNodes).flatMap permsOf

/-- Boolean check that the Dijkstra result for `(s, t)` exists and is at most
as heavy as the candidate path `p`. -/
def optCheck (g : WGraph) (s t : Node) (p : List Node) : Bool :=
  match dijkstra_path g s t with
  | none => false
  | some r =>
    match pathWeight g r, pathWeight g p with
    | some wr, some wp => Nat.ble wr wp
    | _, _ => false

/-- A risk index with no zones at all. -/
def dbNone : Coord → Bool := fun _ => false

/-- A risk index realising scenario A of the spec: exactly the midpoints of
edges B-C and C-E lie inside a risk zone. -/
def dbScenarioA : Coord → Bool := fun p =>
  decide (p = midpointOf (nodeCoord .B_Intersection) (nodeCoord .C_Risky_Area)) ||
  decide (p = midpointOf (nodeCoord .C_Risky_Area) (nodeCoord .E_Work))

/-- A fallible risk index whose every query raises. -/
def dbErrAll : Coord → Except String Bool := fun _ => .error "risk index unreachable"

theorem MAP_NODES_eq : MAP_NODES = allNodes.map (fun n => (nodeName n, nodeCoord n)) := rfl

theorem MAP_EDGES_eq : MAP_EDGES = edgesI.map (fun e => (nodeName e.1, nodeName e.2)) := rfl

theorem create_map_graph_eq (db : Coord → Bool) :
    create_map_graph db = (graphOf (dbEdge db), queriesList) := rfl

theorem parse_name : ∀ n : Node, parseNode (nodeName n) = some n := by decide

theorem optCheck_decided :
    ∀ p ∈ allNodupLists, ∀ s t : Node, isRouteB s t p = true →
      ∀ b1 b2 b3 b4 b5 : Bool,
        optCheck (graphOf (fOf b1 b2 b3 b4 b5)) s t p = true := by decide

theorem dijkstra_valid_decided :
    ∀ (b1 b2 b3 b4 b5 : Bool) (s t : Node),
      ∀ r ∈ dijkstra_path (graphOf (fOf b1 b2 b3 b4 b5)) s t,
        isRouteB s t r = true ∧ r.Nodup := by decide

theorem mem_insertsOf (x : Node) (l1 l2 : List Node) :
    (l1 ++ x :: l2) ∈ insertsOf x (l1 ++ l2) := by
  induction l1 with
  | nil => cases l2 <;> simp [insertsOf]
  | cons y l1 ih =>
    simp only [List.cons_append, insertsOf, List.mem_cons, List.mem_map]
    exact Or.inr ⟨l1 ++ x :: l2, ih, rfl⟩

theorem mem_permsOf : ∀ (l p : List Node), p.Perm l → p ∈ permsOf l := by
  intro l
  induction l with
  | nil => intro p h; simp [permsOf, h.eq_nil]
  | cons x xs ih =>
    intro p h
    have hx : x ∈ p := h.mem_iff.mpr (List.mem_cons_self x xs)
    obtain ⟨l1, l2, rfl⟩ := List.append_of_mem hx
    have h2 : (l1 ++ l2).Perm xs := (List.perm_middle.symm.trans h).cons_inv
    simp only [permsOf, List.mem_flatMap]
    exact ⟨l1 ++ l2, ih _ h2, mem_insertsOf x l1 l2⟩

theorem mem_sublistsOf : ∀ {l p : List Node}, p.Sublist l → p ∈ sublistsOf l := by
  intro l
  induction l with
  | nil => intro p h; simp [sublistsOf, List.sublist_nil.mp h]
  | cons x xs ih =>
    intro p h
    cases h with
    | cons _ h' => exact List.mem_append_left _ (ih h')
    | cons₂ _ h' =>
      refine List.mem_append_right _ ?_
      simp only [List.mem_map]
      exact ⟨_, ih h', rfl⟩

theorem mem_allNodupLists (p : List Node) (hp : p.Nodup) : p ∈ allNodupLists := by
  have hsub : p ⊆ allNodes := fun x _ => by cases x <;> simp [allNodes]
  obtain ⟨l, hl1, hl2⟩ := hp.subperm hsub
  simp only [allNodupLists, List.mem_flatMap]
  exact ⟨l, mem_sublistsOf hl2, mem_permsOf l p hl1.symm⟩

theorem optCheck_spec {g : WGraph} {s t : Node} {p : List Node}
    (h : optCheck g s t p = true) :
    ∃ r wr wp, dijkstra_path g s t = some r ∧ pathWeight g r = some wr ∧
      pathWeight g p = some wp ∧ wr ≤ wp := by
  cases hd : dijkstra_path g s t with
  | none => simp only [optCheck, hd] at h; exact absurd h (by simp)
  | some r =>
    simp only [optCheck, hd] at h
    cases hr : pathWeight g r with
    | none => simp only [hr] at h; exact absurd h (by simp)
    | some wr =>
      cases hp2 : pathWeight g p with
      | none => simp only [hr, hp2] at h; exact absurd h (by simp)
      | some wp =>
        simp only [hr, hp2] at h
        exact ⟨r, wr, wp, rfl, hr, rfl, Nat.le_of_ble_eq_true h⟩

theorem midpointOf_symm (c1 c2 : Coord) : midpointOf c1 c2 = midpointOf c2 c1 := by
  simp [midpointOf, add_comm]

theorem dbEdge_symm (db : Coord → Bool) (a b : Node) : dbEdge db a b = dbEdge db b a := by
  unfold dbEdge; rw [midpointOf_symm]

theorem edgeWeight_create (db : Coord → Bool) (a b : Node) (h : adjB a b = true) :
    edgeWeight (graphOf (dbEdge db)) a b = some (if dbEdge db a b then 100 else 1) := by
  cases a <;> cases b <;>
    first
      | exact absurd h (by decide)
      | (simp [edgeWeight, graphOf, List.find?]; try rw [dbEdge_symm])

theorem safe_pathWeight (db : Coord → Bool) :
    ∀ p : List Node, chainB p = true →
      (∀ ab ∈ edgePairs p, dbEdge db ab.1 ab.2 = false) → p ≠ [] →
      pathWeight (graphOf (dbEdge db)) p = some (p.length - 1) := by
  intro p
  induction p with
  | nil => intro _ _ hne; exact absurd rfl hne
  | cons a q ih =>
    intro hc hs _
    cases q with
    | nil => simp [pathWeight]
    | cons b r =>
      simp only [chainB, Bool.and_eq_true] at hc
      have hhd : dbEdge db a b = false := hs (a, b) (by simp [edgePairs])
      have htl : ∀ ab ∈ edgePairs (b :: r), dbEdge db ab.1 ab.2 = false := by
        intro ab hab; exact hs ab (by simp [edgePairs, hab])
      have ih' := ih hc.2 htl (by simp)
      rw [pathWeight, edgeWeight_create db a b hc.1, hhd, ih']
      simp only [List.length_cons]
      norm_num
      omega

theorem pathWeight_lb (db : Coord → Bool) :
    ∀ p : List Node, chainB p = true → p ≠ [] →
      ∃ m, pathWeight (graphOf (dbEdge db)) p = some m ∧ p.length - 1 ≤ m := by
  intro p
  induction p with
  | nil => intro _ hne; exact absurd rfl hne
  | cons a q ih =>
    intro hc _
    cases q with
    | nil => exact ⟨0, by simp [pathWeight], by simp⟩
    | cons b r =>
      simp only [chainB, Bool.and_eq_true] at hc
      obtain ⟨m, hm, hlb⟩ := ih hc.2 (by simp)
      rw [pathWeight, edgeWeight_create db a b hc.1, hm]
      refine ⟨(if dbEdge db a b then 100 else 1) + m, rfl, ?_⟩
      cases dbEdge db a b <;> simp at hlb ⊢ <;> omega

theorem risky_pathWeight (db : Coord → Bool) :
    ∀ p : List Node, chainB p = true →
      (∃ ab ∈ edgePairs p, dbEdge db ab.1 ab.2 = true) →
      ∃ m, pathWeight (graphOf (dbEdge db)) p = some m ∧ p.length - 1 + 99 ≤ m := by
  intro p
  induction p with
  | nil => rintro _ ⟨ab, hab, _⟩; simp [edgePairs] at hab
  | cons a q ih =>
    rintro hc ⟨ab, hab, hr⟩
    cases q with
    | nil => simp [edgePairs] at hab
    | cons b r =>
      simp only [chainB, Bool.and_eq_true] at hc
      rw [pathWeight, edgeWeight_create db a b hc.1]
      simp only [edgePairs, List.mem_cons] at hab
      rcases hab with rfl | hab
      · simp only at hr
        rw [hr]
        obtain ⟨m, hm, hlb⟩ := pathWeight_lb db (b :: r) hc.2 (by simp)
        rw [hm]
        exact ⟨100 + m, rfl, by simp at hlb ⊢; omega⟩
      · obtain ⟨m, hm, hlb⟩ := ih hc.2 ⟨ab, hab, hr⟩
        rw [hm]
        refine ⟨(if dbEdge db a b then 100 else 1) + m, rfl, ?_⟩
        cases dbEdge db a b <;> simp at hlb ⊢ <;> omega

theorem name_inj : Function.Injective nodeName := by
  intro a b; cases a <;> cases b <;> decide

theorem find_valid (db : Coord → Bool) (s t : Node) :
    (find_safest_route (nodeName s) (nodeName t) db).1 =
      (dijkstra_path (graphOf (dbEdge db)) s t).map
        (fun p => ⟨p.map nodeName, p.map nodeCoord⟩) := by
  simp only [find_safest_route, parse_name, create_map_graph_eq]
  cases dijkstra_path (graphOf (dbEdge db)) s t <;> simp

theorem adjB_names : ∀ a b : Node, adjB a b = true →
    ((nodeName a, nodeName b) ∈ MAP_EDGES ∨ (nodeName b, nodeName a) ∈ MAP_EDGES) := by
  decide

theorem chainB_chain' : ∀ p : List Node, chainB p = true →
    List.Chain' (fun a b => adjB a b = true) p := by
  intro p
  induction p with
  | nil => intro _; simp
  | cons a q ih =>
    intro hc
    cases q with
    | nil => simp
    | cons b r =>
      simp only [chainB, Bool.and_eq_true] at hc
      exact List.Chain'.cons hc.1 (ih hc.2)

theorem find_invalid (s t : String) (db : Coord → Bool)
    (h : parseNode s = none ∨ parseNode t = none) :
    find_safest_route s t db = (none, []) := by
  rcases h with h | h
  · simp [find_safest_route, h]
  · cases hs : parseNode s <;> simp [find_safest_route, hs, h]

theorem dbScenarioA_AB : dbEdge dbScenarioA .A_Home .B_Intersection = false := by
  simp only [dbEdge, dbScenarioA, midpointOf, nodeCoord]; norm_num

theorem dbScenarioA_BC : dbEdge dbScenarioA .B_Intersection .C_Risky_Area = true := by
  simp only [dbEdge, dbScenarioA, midpointOf, nodeCoord]; norm_num

theorem dbScenarioA_BD : dbEdge dbScenarioA .B_Intersection .D_Intersection = false := by
  simp only [dbEdge, dbScenarioA, midpointOf, nodeCoord]; norm_num

theorem dbScenarioA_CE : dbEdge dbScenarioA .C_Risky_Area .E_Work = true := by
  simp only [dbEdge, dbScenarioA, midpointOf, nodeCoord]; norm_num

theorem dbScenarioA_DE : dbEdge dbScenarioA .D_Intersection .E_Work = false := by
  simp only [dbEdge, dbScenarioA, midpointOf, nodeCoord]; norm_num

theorem graphE_error (db : Coord → Except String Bool)
    (h : ∃ e ∈ edgesI, ∃ msg, dbEdgeE db e.1 e.2 = .error msg) :
    ∃ msg, create_map_graphE db = .error msg := by
  cases h1 : dbEdgeE db .A_Home .B_Intersection with
  | error e1 =>
    exact ⟨e1, by
      simp [create_map_graphE, edgesI, get_edge_risk_weightE, dbEdgeE] at h1 ⊢
      simp [h1]⟩
  | ok b1 =>
    cases h2 : dbEdgeE db .B_Intersection .C_Risky_Area with
    | error e2 =>
      exact ⟨e2, by
        simp [create_map_graphE, edgesI, get_edge_risk_weightE, dbEdgeE] at h1 h2 ⊢
        simp [h1, h2]⟩
    | ok b2 =>
      cases h3 : dbEdgeE db .B_Intersection .D_Intersection with
      | error e3 =>
        exact ⟨e3, by
          simp [create_map_graphE, edgesI, get_edge_risk_weightE, dbEdgeE] at h1 h2 h3 ⊢
          simp [h1, h2, h3]⟩
      | ok b3 =>
        cases h4 : dbEdgeE db .C_Risky_Area .E_Work with
        | error e4 =>
          exact ⟨e4, by
            simp [create_map_graphE, edgesI, get_edge_risk_weightE, dbEdgeE] at h1 h2 h3 h4 ⊢
            simp [h1, h2, h3, h4]⟩
        | ok b4 =>
          cases h5 : dbEdgeE db .D_Intersection .E_Work with
          | error e5 =>
            exact ⟨e5, by
              simp [create_map_graphE, edgesI, get_edge_risk_weightE, dbEdgeE]
                at h1 h2 h3 h4 h5 ⊢
              simp [h1, h2, h3, h4, h5]⟩
          | ok b5 =>
            exfalso
            obtain ⟨e, he, msg, herr⟩ := h
            simp only [edgesI, List.mem_cons, List.not_mem_nil, or_false] at he
            rcases he with rfl | rfl | rfl | rfl | rfl <;> simp_all

theorem findE_of_graph_error (db : Coord → Except String Bool) (msg : String)
    (hg : create_map_graphE db = .error msg)
    (s t : String) (i j : Node) (hs : parseNode s = some i) (ht : parseNode t = some j) :
    find_safest_routeE s t db = .error msg := by
  simp [find_safest_routeE, hs, ht, hg]

/-- C1: on the fixed five-node map, if the risk index classifies the midpoints
of edges B-C and C-E as inside a risk zone and the midpoints of A-B, B-D and
D-E as outside, then `find_safest_route("A_Home", "E_Work")` returns the node
sequence `[A_Home, B_Intersection, D_Intersection, E_Work]` (with the matching
coordinates), whose total edge weight is 3, and not any path through
`C_Risky_Area`. -/
theorem C1_scenarioA_route (db : Coord → Bool)
    (hAB : dbEdge db .A_Home .B_Intersection = false)
    (hBC : dbEdge db .B_Intersection .C_Risky_Area = true)
    (hBD : dbEdge db .B_Intersection .D_Intersection = false)
    (hCE : dbEdge db .C_Risky_Area .E_Work = true)
    (hDE : dbEdge db .D_Intersection .E_Work = false) :
    (find_safest_route "A_Home" "E_Work" db).1 =
      some ⟨["A_Home", "B_Intersection", "D_Intersection", "E_Work"],
            [(-74.0060, 40.7128), (-73.9960, 40.7228), (-73.9950, 40.7428), (-73.9850, 40.7528)]⟩ ∧
    pathWeight (create_map_graph db).1
        [.A_Home, .B_Intersection, .D_Intersection, .E_Work] = some 3 ∧
    ∀ r : RouteResult, (find_safest_route "A_Home" "E_Work" db).1 = some r →
      "C_Risky_Area" ∉ r.path_nodes := by
  have hg : graphOf (dbEdge db) = graphOf (fOf false true false true false) := by
    simp [graphOf, fOf, hAB, hBC, hBD, hCE, hDE]
  have h1 : (find_safest_route "A_Home" "E_Work" db).1 =
      some ⟨["A_Home", "B_Intersection", "D_Intersection", "E_Work"],
            [(-74.0060, 40.7128), (-73.9960, 40.7228), (-73.9950, 40.7428), (-73.9850, 40.7528)]⟩ := by
    have hfv := find_valid db .A_Home .E_Work
    simp only [nodeName] at hfv
    rw [hfv, hg]
    rfl
  refine ⟨h1, ?_, ?_⟩
  · simp only [create_map_graph_eq, hg]
    rfl
  · intro r hr
    rw [h1] at hr
    injection hr with hr
    rw [← hr]
    decide

theorem C1_scenarioA_route_witness :
    (dbEdge dbScenarioA .A_Home .B_Intersection = false ∧
     dbEdge dbScenarioA .B_Intersection .C_Risky_Area = true ∧
     dbEdge dbScenarioA .B_Intersection .D_Intersection = false ∧
     dbEdge dbScenarioA .C_Risky_Area .E_Work = true ∧
     dbEdge dbScenarioA .D_Intersection .E_Work = false) ∧
    (find_safest_route "A_Home" "E_Work" dbScenarioA).1 =
      some ⟨["A_Home", "B_Intersection", "D_Intersection", "E_Work"],
            [(-74.0060, 40.7128), (-73.9960, 40.7228), (-73.9950, 40.7428), (-73.9850, 40.7528)]⟩ :=
  ⟨⟨dbScenarioA_AB, dbScenarioA_BC, dbScenarioA_BD, dbScenarioA_CE, dbScenarioA_DE⟩,
   (C1_scenarioA_route dbScenarioA dbScenarioA_AB dbScenarioA_BC dbScenarioA_BD
     dbScenarioA_CE dbScenarioA_DE).1⟩

/-- C2: for every edge, `get_edge_risk_weight` computes the arithmetic
midpoint of the endpoint coordinates, queries the risk index at exactly that
point, and returns 100 iff the midpoint lies inside a risk zone and 1
otherwise; consequently every edge weight of the built graph is in
`{1, 100}` and is strictly positive. -/
theorem C2_edge_weight_policy (c1 c2 : Coord) (db : Coord → Bool) :
    get_edge_risk_weight c1 c2 db =
      ((if db (midpointOf c1 c2) then 100 else 1), [midpointOf c1 c2]) ∧
    ((get_edge_risk_weight c1 c2 db).1 = 1 ∨ (get_edge_risk_weight c1 c2 db).1 = 100) ∧
    0 < (get_edge_risk_weight c1 c2 db).1 ∧
    ((get_edge_risk_weight c1 c2 db).1 = 100 ↔ db (midpointOf c1 c2) = true) ∧
    ∀ e ∈ (create_map_graph db).1, (e.2.2 = 1 ∨ e.2.2 = 100) ∧ 0 < e.2.2 := by
  refine ⟨rfl, ?_, ?_, ?_, ?_⟩
  · cases h : db (midpointOf c1 c2) <;> simp [get_edge_risk_weight, h]
  · cases h : db (midpointOf c1 c2) <;> simp [get_edge_risk_weight, h]
  · cases h : db (midpointOf c1 c2) <;> simp [get_edge_risk_weight, h]
  · intro e he
    rw [create_map_graph_eq] at he
    simp only [graphOf, List.mem_cons, List.not_mem_nil, or_false] at he
    rcases he with rfl | rfl | rfl | rfl | rfl <;> refine ⟨?_, ?_⟩ <;> (try split) <;> simp

theorem C2_edge_weight_policy_witness :
    (get_edge_risk_weight (nodeCoord .A_Home) (nodeCoord .B_Intersection) dbNone =
      ((if dbNone (midpointOf (nodeCoord .A_Home) (nodeCoord .B_Intersection)) then 100 else 1),
       [midpointOf (nodeCoord .A_Home) (nodeCoord .B_Intersection)])) ∧
    ((((Node.A_Home, Node.B_Intersection, 1) : Node × Node × Nat).2.2 = 1 ∨
      ((Node.A_Home, Node.B_Intersection, 1) : Node × Node × Nat).2.2 = 100) ∧
     0 < ((Node.A_Home, Node.B_Intersection, 1) : Node × Node × Nat).2.2) :=
  ⟨(C2_edge_weight_policy (nodeCoord .A_Home) (nodeCoord .B_Intersection) dbNone).1,
   (C2_edge_weight_policy (nodeCoord .A_Home) (nodeCoord .B_Intersection) dbNone).2.2.2.2
     (Node.A_Home, Node.B_Intersection, 1) (by decide)⟩

/-- C3: for every pair of valid start/end nodes, if two connecting simple
paths have the same number of edges, every edge of the first having a
zone-free midpoint while some edge of the second has an in-zone midpoint,
then the route returned by `find_safest_route` is not the second path: the
planner detours around risk whenever a zone-free alternative of equal length
exists. -/
theorem C3_risk_avoidance (db : Coord → Bool) (s t : Node) (p1 p2 : List Node)
    (hp1 : isRouteB s t p1 = true) (hn1 : p1.Nodup)
    (hp2 : isRouteB s t p2 = true)
    (hlen : p1.length = p2.length)
    (hsafe : ∀ ab ∈ edgePairs p1, dbEdge db ab.1 ab.2 = false)
    (hrisk : ∃ ab ∈ edgePairs p2, dbEdge db ab.1 ab.2 = true) :
    ∃ r : RouteResult,
      (find_safest_route (nodeName s) (nodeName t) db).1 = some r ∧
      r.path_nodes ≠ p2.map nodeName := by
  have hopt : optCheck (graphOf (dbEdge db)) s t p1 = true :=
    optCheck_decided p1 (mem_allNodupLists p1 hn1) s t hp1
      (dbEdge db .A_Home .B_Intersection) (dbEdge db .B_Intersection .C_Risky_Area)
      (dbEdge db .B_Intersection .D_Intersection) (dbEdge db .C_Risky_Area .E_Work)
      (dbEdge db .D_Intersection .E_Work)
  obtain ⟨rp, wr, wp1, hd, hwr, hwp1, hle⟩ := optCheck_spec hopt
  have hc1 : chainB p1 = true := by
    simp only [isRouteB, Bool.and_eq_true] at hp1; exact hp1.2
  have hne1 : p1 ≠ [] := by
    simp only [isRouteB, Bool.and_eq_true, decide_eq_true_eq] at hp1
    intro hnil; rw [hnil] at hp1; simp at hp1
  have hc2 : chainB p2 = true := by
    simp only [isRouteB, Bool.and_eq_true] at hp2; exact hp2.2
  have hw1 := safe_pathWeight db p1 hc1 hsafe hne1
  obtain ⟨m2, hm2, hm2lb⟩ := risky_pathWeight db p2 hc2 hrisk
  refine ⟨⟨rp.map nodeName, rp.map nodeCoord⟩, ?_, ?_⟩
  · rw [find_valid db s t, hd]; rfl
  · intro heq
    simp only at heq
    have hrp2 : rp = p2 := List.map_injective_iff.mpr name_inj heq
    rw [hrp2] at hwr
    rw [hwr] at hm2
    injection hm2 with hm2
    rw [hw1] at hwp1
    injection hwp1 with hwp1
    omega

theorem C3_risk_avoidance_witness :
    isRouteB .A_Home .E_Work [.A_Home, .B_Intersection, .D_Intersection, .E_Work] = true ∧
    isRouteB .A_Home .E_Work [.A_Home, .B_Intersection, .C_Risky_Area, .E_Work] = true ∧
    ∃ r : RouteResult,
      (find_safest_route (nodeName .A_Home) (nodeName .E_Work) dbScenarioA).1 = some r ∧
      r.path_nodes ≠
        [Node.A_Home, .B_Intersection, .C_Risky_Area, .E_Work].map nodeName :=
  ⟨by decide, by decide,
    C3_risk_avoidance dbScenarioA .A_Home .E_Work
      [.A_Home, .B_Intersection, .D_Intersection, .E_Work]
      [.A_Home, .B_Intersection, .C_Risky_Area, .E_Work]
      (by decide) (by decide) (by decide) rfl
      (by
        intro ab hab
        simp only [edgePairs, List.mem_cons, List.not_mem_nil, or_false] at hab
        rcases hab with rfl | rfl | rfl
        · exact dbScenarioA_AB
        · exact dbScenarioA_BD
        · exact dbScenarioA_DE)
      ⟨(.B_Intersection, .C_Risky_Area), by simp [edgePairs], dbScenarioA_BC⟩⟩

/-- C4, counterexample: the claim that unknown-node and no-path failures are
distinguishable to the caller is false.  `find_safest_route` returns `None`
for an unknown node exactly as it does for a missing path, and the handler in
`src/api/routes.py` maps any `None` to the one 404 error whose detail
conflates both causes ("No path found or invalid nodes provided"); the
response for `("A_Home", "Z_Unknown")` is literally the no-path packaging
`handleRouteResult none`. -/
theorem C4_failures_not_distinguishable :
    get_safest_route "A_Home" "Z_Unknown" dbNone = handleRouteResult none ∧
    get_safest_route "A_Home" "Z_Unknown" dbNone =
      Except.error (404, "No path found or invalid nodes provided. Valid nodes are: A_Home, B_Intersection, C_Risky_Area, D_Intersection, E_Work") :=
  ⟨rfl, rfl⟩

/-- C4, amended: every failure of the route-planning operation is the single
HTTP 404 outcome carrying the fixed detail string that lists the five valid
node identifiers; an unknown identifier produces exactly this outcome, and no
failure distinguishes the unknown-node cause from the no-path cause. -/
theorem C4_single_failure_outcome :
    (∀ (s t : String) (db : Coord → Bool) (e : Nat × String),
        get_safest_route s t db = .error e → e = (404, msg404)) ∧
    (∀ (s t : String) (db : Coord → Bool),
        parseNode s = none ∨ parseNode t = none →
          get_safest_route s t db = .error (404, msg404)) := by
  constructor
  · intro s t db e h
    unfold get_safest_route handleRouteResult at h
    cases hf : (find_safest_route s t db).1 with
    | none => rw [hf] at h; injection h with h; exact h.symm
    | some route => rw [hf] at h; simp at h
  · intro s t db h
    unfold get_safest_route
    rw [find_invalid s t db h]
    rfl

theorem C4_single_failure_outcome_witness :
    parseNode "Z_Unknown" = none ∧
    get_safest_route "A_Home" "Z_Unknown" dbNone = .error (404, msg404) :=
  ⟨rfl, C4_single_failure_outcome.2 "A_Home" "Z_Unknown" dbNone (Or.inr rfl)⟩

/-- C5: whenever the start or the end identifier is unknown,
`find_safest_route` fails fast: it returns the unknown-node failure with an
empty risk-index query log (so `create_map_graph` is never invoked and no risk
index query is performed), independently of the risk-zone data. -/
theorem C5_invalid_fails_fast (s t : String) (db : Coord → Bool)
    (h : parseNode s = none ∨ parseNode t = none) :
    find_safest_route s t db = (none, []) ∧
    ∀ db' : Coord → Bool, find_safest_route s t db' = (none, []) :=
  ⟨find_invalid s t db h, fun db' => find_invalid s t db' h⟩

theorem C5_invalid_fails_fast_witness :
    (parseNode "Z_Unknown" = none ∨ parseNode "E_Work" = none) ∧
    (find_safest_route "Z_Unknown" "E_Work" dbNone = (none, []) ∧
     ∀ db' : Coord → Bool, find_safest_route "Z_Unknown" "E_Work" db' = (none, [])) :=
  ⟨Or.inl rfl, C5_invalid_fails_fast "Z_Unknown" "E_Work" dbNone (Or.inl rfl)⟩

/-- C6: for every node of the known node set and every risk-zone
configuration, routing a node to itself succeeds with the single-element node
sequence and the single-element coordinate sequence of that node. -/
theorem C6_trivial_route (n : Node) (db : Coord → Bool) :
    (find_safest_route (nodeName n) (nodeName n) db).1 =
      some ⟨[nodeName n], [nodeCoord n]⟩ := by
  cases n <;> rfl

/-- C7: `find_safest_route` (and the enclosing handler) is deterministic: with
identical inputs and unchanged (pointwise equal) risk-zone data, two
evaluations return identical results — same node and coordinate sequences on
success and the same failure outcome otherwise. -/
theorem C7_deterministic (s t : String) (db1 db2 : Coord → Bool)
    (h : ∀ p : Coord, db1 p = db2 p) :
    find_safest_route s t db1 = find_safest_route s t db2 ∧
    get_safest_route s t db1 = get_safest_route s t db2 := by
  have hdb : db1 = db2 := funext h
  rw [hdb]
  exact ⟨rfl, rfl⟩

theorem C7_deterministic_witness :
    find_safest_route "A_Home" "E_Work" dbNone = find_safest_route "A_Home" "E_Work" dbNone ∧
    get_safest_route "A_Home" "E_Work" dbNone = get_safest_route "A_Home" "E_Work" dbNone :=
  C7_deterministic "A_Home" "E_Work" dbNone dbNone (fun _ => rfl)

/-- C8: if the risk-index lookup raises for some edge midpoint, the whole
graph build fails (no graph is produced, in particular none that treats the
affected edges as zone-free), and the error propagates out of
`find_safest_route`, whose exception handler catches only the no-path
condition. -/
theorem C8_index_error_propagates (db : Coord → Except String Bool)
    (h : ∃ e ∈ edgesI, ∃ msg, dbEdgeE db e.1 e.2 = .error msg) :
    (∀ g : WGraph, create_map_graphE db ≠ .ok g) ∧
    ∃ msg, create_map_graphE db = .error msg ∧
      ∀ (s t : String) (i j : Node), parseNode s = some i → parseNode t = some j →
        find_safest_routeE s t db = .error msg := by
  obtain ⟨msg, hmsg⟩ := graphE_error db h
  refine ⟨?_, msg, hmsg, fun s t i j hs ht => findE_of_graph_error db msg hmsg s t i j hs ht⟩
  intro g hok
  rw [hmsg] at hok
  exact Except.noConfusion hok

theorem C8_index_error_propagates_witness :
    (∃ e ∈ edgesI, ∃ msg, dbEdgeE dbErrAll e.1 e.2 = .error msg) ∧
    ((∀ g : WGraph, create_map_graphE dbErrAll ≠ .ok g) ∧
     ∃ msg, create_map_graphE dbErrAll = .error msg ∧
       ∀ (s t : String) (i j : Node), parseNode s = some i → parseNode t = some j →
         find_safest_routeE s t dbErrAll = .error msg) :=
  ⟨⟨(.A_Home, .B_Intersection), by simp [edgesI], "risk index unreachable", rfl⟩,
   C8_index_error_propagates dbErrAll
     ⟨(.A_Home, .B_Intersection), by simp [edgesI], "risk index unreachable", rfl⟩⟩

/-- C9: every successful route's node sequence, consumed pairwise, consists
only of declared streets: each consecutive pair is an element of `MAP_EDGES`
in one of its two orientations, for every input pair and every risk-zone
configuration. -/
theorem C9_route_uses_declared_edges (db : Coord → Bool) (s t : String) (r : RouteResult)
    (h : (find_safest_route s t db).1 = some r) :
    List.Chain' (fun a b => (a, b) ∈ MAP_EDGES ∨ (b, a) ∈ MAP_EDGES) r.path_nodes := by
  cases hs : parseNode s with
  | none => rw [find_invalid s t db (Or.inl hs)] at h; simp at h
  | some i =>
    cases ht : parseNode t with
    | none => rw [find_invalid s t db (Or.inr ht)] at h; simp at h
    | some j =>
      simp only [find_safest_route, hs, ht, create_map_graph_eq] at h
      cases hd : dijkstra_path (graphOf (dbEdge db)) i j with
      | none => simp only [hd] at h; exact Option.noConfusion h
      | some rp =>
        simp only [hd] at h
        have hr : r = ⟨rp.map nodeName, rp.map nodeCoord⟩ := by
          injection h with h; exact h.symm
        subst hr
        have hv : isRouteB i j rp = true ∧ rp.Nodup :=
          dijkstra_valid_decided (dbEdge db .A_Home .B_Intersection)
            (dbEdge db .B_Intersection .C_Risky_Area)
            (dbEdge db .B_Intersection .D_Intersection)
            (dbEdge db .C_Risky_Area .E_Work)
            (dbEdge db .D_Intersection .E_Work) i j rp (Option.mem_def.mpr hd)
        have hcB : chainB rp = true := by
          have := hv.1
          simp only [isRouteB, Bool.and_eq_true] at this
          exact this.2
        have hchain := chainB_chain' rp hcB
        show List.Chain' _ (rp.map nodeName)
        rw [List.chain'_map]
        exact hchain.imp (fun a b hab => adjB_names a b hab)

theorem C9_route_uses_declared_edges_witness :
    ((find_safest_route "A_Home" "E_Work" dbNone).1 =
      some ⟨["A_Home", "B_Intersection", "C_Risky_Area", "E_Work"],
            [(-74.0060, 40.7128), (-73.9960, 40.7228), (-73.9860, 40.7328), (-73.9850, 40.7528)]⟩) ∧
    List.Chain' (fun a b => (a, b) ∈ MAP_EDGES ∨ (b, a) ∈ MAP_EDGES)
      (RouteResult.path_nodes
        ⟨["A_Home", "B_Intersection", "C_Risky_Area", "E_Work"],
         [(-74.0060, 40.7128), (-73.9960, 40.7228), (-73.9860, 40.7328), (-73.9850, 40.7528)]⟩) :=
  ⟨rfl, C9_route_uses_declared_edges dbNone "A_Home" "E_Work" _ rfl⟩

/-- C10: `get_edge_risk_weight` is symmetric in its endpoints: the sampled
midpoint is the same for both orientations, so an undirected edge receives one
well-defined weight (and the same query list) regardless of endpoint order. -/
theorem C10_weight_symmetric (c1 c2 : Coord) (db : Coord → Bool) :
    get_edge_risk_weight c1 c2 db = get_edge_risk_weight c2 c1 db := by
  unfold get_edge_risk_weight
  rw [midpointOf_symm]
